import Mathlib

/-!
Verification of the oagi-typescript SDK core against its specification.

This file gives a shallow embedding, in Lean 4, of the parts of the
TypeScript source that the checked claims are about:

* `src/utils/output-parser.ts` — `splitActions`, `parseAction`;
* `src/agent/tasker/planner.ts` — `Planner.parse_reflection_output`
  (and the duplicate sync variant `Planner.parseReflectionOutput`);
* `src/agent/tasker/memory.ts` — `PlannerMemory` and its mutators;
* `src/agent/tasker/tasker_agent.ts` — the `TaskerAgent.execute` loop;
* `src/actor.ts` — the `Actor` step-ceiling bookkeeping;
* `src/handler.ts` — `DefaultActionHandler.#denormalize`.

JavaScript strings are modelled as Lean `String`s (lists of characters),
JavaScript numbers that the modelled code paths use as array indices or
counters are modelled as `Int`/`Nat`, and JavaScript exceptions are
modelled with `Except`/`Option`.  Runtime builtins (`String.prototype.trim`,
`Number`, `JSON.parse`, …) are modelled by executable Lean functions that
agree with the builtin on the fragment the SDK feeds them; each model notes
its restrictions in its doc comment.
-/

namespace OagiSpec

/-! ## JavaScript string helpers -/

/-- Whitespace for `String.prototype.trim` (ASCII part: space, tab, LF, CR,
vertical tab, form feed).  The SDK only ever trims ASCII action text. -/
def jsWhitespace (c : Char) : Bool :=
  c = ' ' || c = '\t' || c = '\n' || c = '\r' || c = Char.ofNat 11 || c = Char.ofNat 12

/-- Model of `String.prototype.trim` on a character list. -/
def jsTrimList (cs : List Char) : List Char :=
  ((cs.dropWhile jsWhitespace).reverse.dropWhile jsWhitespace).reverse

/-- Model of `String.prototype.trim`. -/
def jsTrim (s : String) : String :=
  ⟨jsTrimList s.data⟩

/-- JavaScript string truthiness: a string is truthy iff it is non-empty.
`none` stands for `null`/`undefined` (falsy). -/
def strTruthy : Option String → Bool
  | some s => decide (s ≠ "")
  | none => false

/-! ## output-parser.ts: splitActions

Source (`src/utils/output-parser.ts`, lines 24–50): iterate over the
characters of the action block, pushing each character onto `currentAction`
BEFORE the switch; on `&` at paren level 0, trim and emit `currentAction`
(dropping it when the trimmed text is empty) and reset the accumulator;
`(` / `)` adjust the nesting level; at the end the remaining accumulator is
trimmed and emitted if non-empty.  Note that because the character is pushed
before the switch, the emitted token still contains the `&` itself. -/

def splitActionsGo : List Char → List Char → Int → List String → List String
  | [], cur, _, acc =>
      let lastAction := jsTrimList cur
      if lastAction = [] then acc else acc ++ [String.mk lastAction]
  | c :: rest, cur, parenLevel, acc =>
      let cur := cur ++ [c]
      if c = '(' then
        splitActionsGo rest cur (parenLevel + 1) acc
      else if c = ')' then
        splitActionsGo rest cur (parenLevel - 1) acc
      else if c = '&' then
        if parenLevel = 0 then
          let action := jsTrimList cur
          splitActionsGo rest [] parenLevel
            (if action = [] then acc else acc ++ [String.mk action])
        else
          splitActionsGo rest cur parenLevel acc
      else
        splitActionsGo rest cur parenLevel acc

/-- Model of `splitActions` (`src/utils/output-parser.ts`). -/
def splitActions (actionBlock : String) : List String :=
  splitActionsGo actionBlock.data [] 0 []

/-! ## output-parser.ts: parseAction

`parseAction` first runs the regular expression match
`/(\w+)\((.*)\)/.exec(action)`.  We model the JavaScript regex engine's
behaviour for this one pattern: the engine tries successive start
positions left to right; at a position, `\w+` takes a maximal run of word
characters which must be followed immediately by `(`; then the greedy
`(.*)` (which cannot cross a line terminator) runs to the end of the line
and backtracks to the last `)` on that line.  If no `)` follows on the
line, the engine moves on to the next start position. -/

/-- Word character for the regex class `\w` ( `[A-Za-z0-9_]` ). -/
def isWordChar (c : Char) : Bool :=
  (('a' ≤ c && c ≤ 'z') || ('A' ≤ c && c ≤ 'Z') || ('0' ≤ c && c ≤ '9') || c = '_')

/-- Line terminators that `.` does not match in a JavaScript regex. -/
def isLineTerminator (c : Char) : Bool :=
  c = '\n' || c = '\r'

/-- Characters of `seg` strictly before its last `)` , or `none` when `seg`
holds no `)` (the greedy `(.*)\)` backtracks to the last `)`). -/
def argsBeforeLastClose (seg : List Char) : Option (List Char) :=
  match seg.reverse.dropWhile (fun c => c ≠ ')') with
  | [] => none
  | _ :: tail => some tail.reverse

/-- One attempt of `/(\w+)\((.*)\)/` at the current start position; on
failure the engine retries from the next position. -/
def execNameParen : List Char → Option (String × String)
  | [] => none
  | c :: rest =>
      if isWordChar c then
        let run := (c :: rest).takeWhile isWordChar
        let after := (c :: rest).dropWhile isWordChar
        match after with
        | '(' :: tl =>
            let seg := tl.takeWhile (fun ch => !isLineTerminator ch)
            match argsBeforeLastClose seg with
            | some args => some (String.mk run, String.mk args)
            | none => execNameParen rest
        | _ => execNameParen rest
      else
        execNameParen rest

/-- Model of `String.prototype.split(',')`: split at every comma; an input
without commas yields a one-element list. -/
def splitOnComma : List Char → List (List Char)
  | [] => [[]]
  | c :: rest =>
      if c = ',' then
        [] :: splitOnComma rest
      else
        match splitOnComma rest with
        | [] => [[c]]
        | p :: ps => (c :: p) :: ps

/-- Value of the JavaScript `Number(...)` coercion, as far as the action
parser observes it: `nan` for NaN, `int n` for a finite integral value,
`nonint` for a finite non-integral value. -/
inductive JsNum where
  | nan
  | int (n : Int)
  | nonint
deriving Repr, DecidableEq

/-- Digits-to-Nat helper for `jsNumber`. -/
def digitsToNat (ds : List Char) : Nat :=
  ds.foldl (fun acc c => acc * 10 + (c.toNat - '0'.toNat)) 0

/-- Model of `Number(s)` restricted to the decimal literals the action
parser meets: after trimming, the empty string is `0`; an optional sign
followed by digits and an optional fractional part is a finite value,
integral exactly when the fractional digits are absent or all `0`.  Other
numeric forms (exponents, hex, `Infinity`) are modelled as NaN; the parser
coerces every non-positive-integer value, NaN included, to a count of 1,
so this restriction does not affect the claims below. -/
def jsNumber (s : String) : JsNum :=
  let cs := jsTrimList s.data
  if cs = [] then .int 0
  else
    let (sign, body) : Int × List Char :=
      match cs with
      | '-' :: tl => (-1, tl)
      | '+' :: tl => (1, tl)
      | _ => (1, cs)
    let intDigits := body.takeWhile Char.isDigit
    let rest := body.dropWhile Char.isDigit
    match rest with
    | [] =>
        if intDigits = [] then .nan
        else .int (sign * (digitsToNat intDigits : Int))
    | '.' :: fracPart =>
        let fracDigits := fracPart.takeWhile Char.isDigit
        if fracPart.dropWhile Char.isDigit ≠ [] then .nan
        else if intDigits = [] && fracDigits = [] then .nan
        else if fracDigits.all (fun c => c = '0') then
          .int (sign * (digitsToNat intDigits : Int))
        else .nonint
    | _ => .nan

/-- Recognized action names (`ActionTypeSchema` in `src/types`, a zod
string enum; `safeParse` succeeds exactly on these literals). -/
def actionTypes : List String :=
  ["click", "left_double", "left_triple", "right_single", "drag",
   "hotkey", "type", "scroll", "finish", "wait", "call_user"]

/-- Model of the parsed `Action` record (`count` after coercion is a
positive integer). -/
structure Action where
  type : String
  argument : String
  count : Int
deriving Repr, DecidableEq

/-- Body of `parseAction` up to (but not including) the final count
coercion: the action type, the stored argument, and the raw `count`
as produced by `Number(...)` (default `1`). -/
def parseActionCore (action : String) : Option (String × String × JsNum) :=
  match execNameParen action.data with
  | none => none
  | some (name, rawArgs) =>
      if actionTypes.contains name then
        let argument := jsTrim rawArgs
        let args := splitOnComma argument.data
        if name = "hotkey" then
          match args with
          | a0 :: a1 :: _ =>
              if jsTrimList a1 ≠ [] then
                some (name, String.mk (jsTrimList a0), jsNumber (String.mk (jsTrimList a1)))
              else some (name, argument, .int 1)
          | _ => some (name, argument, .int 1)
        else if name = "scroll" then
          match args with
          | a0 :: a1 :: a2 :: a3 :: _ =>
              some (name,
                String.mk (jsTrimList a0) ++ "," ++ String.mk (jsTrimList a1) ++ ","
                  ++ String.mk (jsTrimList a2),
                jsNumber (String.mk (jsTrimList a3)))
          | _ => some (name, argument, .int 1)
        else some (name, argument, .int 1)
      else none

/-- The final coercion `if (!Number.isInteger(count) || count <= 0) count = 1`. -/
def coerceCount : JsNum → Int
  | .int n => if n ≤ 0 then 1 else n
  | _ => 1

/-- True exactly when the raw count is a positive integer (so the coercion
leaves it alone). -/
def isPosIntCount : JsNum → Bool
  | .int n => decide (0 < n)
  | _ => false

/-- Model of `parseAction` (`src/utils/output-parser.ts`, lines 70–106). -/
def parseAction (action : String) : Option Action :=
  (parseActionCore action).map fun r => ⟨r.1, r.2.1, coerceCount r.2.2⟩

/-! ## JSON model

`Planner.parse_reflection_output` feeds the worker reply through
`extract_json_str` and `JSON.parse`.  `JSON.parse` is a runtime builtin;
we model it by an executable recursive-descent parser over a JSON value
tree.  Restrictions of the model (noted where they matter): JSON numbers
are modelled as integers — a reply containing a fractional or exponent
number form is treated as a parse failure, which both reflection-parser
variants map to the same fallback record. -/

/-- Parsed JSON values (`JSON.parse` output).  Arrays and objects carry
their contents as an inline right-nested spine — `arrCons h t` is the
array whose first element is `h` and whose remaining elements are the
spine `t`; `objCons k v t` likewise for object members in source order.
The spine encoding keeps every function on `JValue` structurally
recursive (and so executable and kernel-reducible). -/
inductive JValue where
  | null
  | bool (b : Bool)
  | num (n : Int)
  | str (s : String)
  | arrNil
  | arrCons (head : JValue) (tail : JValue)
  | objNil
  | objCons (key : String) (val : JValue) (tail : JValue)
deriving Repr, DecidableEq

/-- JSON insignificant whitespace. -/
def jsonWs (c : Char) : Bool :=
  c = ' ' || c = '\t' || c = '\n' || c = '\r'

/-- Skip JSON whitespace. -/
def skipWs (cs : List Char) : List Char :=
  cs.dropWhile jsonWs

/-- Value of one hexadecimal digit (case-insensitive), for `\uXXXX`
escapes. -/
def hexDigitValue (c : Char) : Option Nat :=
  if c.isDigit then
    some (c.toNat - 48)
  else
    let l := c.toLower
    if 'a' ≤ l && l ≤ 'f' then some (l.toNat - 87) else none

/-- Parse the body of a JSON string (the opening quote already consumed),
returning the decoded characters and the remaining input. -/
def parseJStringGo : Nat → List Char → Option (List Char × List Char)
  | 0, _ => none
  | _ + 1, [] => none
  | fuel + 1, c :: rest =>
      if c = '"' then some ([], rest)
      else if c = '\\' then
        match rest with
        | [] => none
        | e :: rest2 =>
            let esc : Option (Char × List Char) :=
              if e = '"' then some ('"', rest2)
              else if e = '\\' then some ('\\', rest2)
              else if e = '/' then some ('/', rest2)
              else if e = 'b' then some (Char.ofNat 8, rest2)
              else if e = 'f' then some (Char.ofNat 12, rest2)
              else if e = 'n' then some ('\n', rest2)
              else if e = 'r' then some ('\r', rest2)
              else if e = 't' then some ('\t', rest2)
              else if e = 'u' then
                match rest2 with
                | h1 :: h2 :: h3 :: h4 :: rest3 =>
                    match hexDigitValue h1, hexDigitValue h2,
                        hexDigitValue h3, hexDigitValue h4 with
                    | some a, some b, some c3, some d =>
                        some (Char.ofNat (a * 0x1000 + b * 0x100 + c3 * 0x10 + d), rest3)
                    | _, _, _, _ => none
                | _ => none
              else none
            match esc with
            | some (ch, r) => (parseJStringGo fuel r).map (fun p => (ch :: p.1, p.2))
            | none => none
      else
        (parseJStringGo fuel rest).map (fun p => (c :: p.1, p.2))

/-- Parse a JSON number restricted to the integer grammar
`-? ( 0 | [1-9][0-9]* )`; a following `.` or exponent makes the whole
parse fail at the enclosing structure level. -/
def parseJNumber (cs : List Char) : Option (Int × List Char) :=
  let (neg, cs1) : Bool × List Char :=
    match cs with
    | '-' :: tl => (true, tl)
    | _ => (false, cs)
  match cs1 with
  | [] => none
  | d :: tl =>
      if d = '0' then some (0, tl)
      else if d.isDigit then
        let digits := (d :: tl).takeWhile Char.isDigit
        let rest := (d :: tl).dropWhile Char.isDigit
        some ((if neg then -(digitsToNat digits : Int) else (digitsToNat digits : Int)), rest)
      else none

mutual

/-- Parse one JSON value (fuel-indexed; `jsonParse` supplies enough fuel). -/
def parseJValue : Nat → List Char → Option (JValue × List Char)
  | 0, _ => none
  | fuel + 1, cs =>
      match skipWs cs with
      | [] => none
      | '\x7b' :: tl =>
          match skipWs tl with
          | '\x7d' :: r => some (.objNil, r)
          | tl2 => parseJMembers fuel tl2
      | '[' :: tl =>
          match skipWs tl with
          | ']' :: r => some (.arrNil, r)
          | tl2 => parseJElems fuel tl2
      | '"' :: tl =>
          (parseJStringGo (tl.length + 1) tl).map (fun p => (.str (String.mk p.1), p.2))
      | 't' :: 'r' :: 'u' :: 'e' :: r => some (.bool true, r)
      | 'f' :: 'a' :: 'l' :: 's' :: 'e' :: r => some (.bool false, r)
      | 'n' :: 'u' :: 'l' :: 'l' :: r => some (.null, r)
      | other => (parseJNumber other).map (fun p => (.num p.1, p.2))

/-- Parse one or more `"key": value` members followed by the closing brace
(the input is positioned at the first key). -/
def parseJMembers : Nat → List Char → Option (JValue × List Char)
  | 0, _ => none
  | fuel + 1, cs =>
      match cs with
      | '"' :: tl =>
          match parseJStringGo (tl.length + 1) tl with
          | none => none
          | some (key, r1) =>
              match skipWs r1 with
              | ':' :: r2 =>
                  match parseJValue fuel r2 with
                  | none => none
                  | some (v, r3) =>
                      match skipWs r3 with
                      | ',' :: r4 =>
                          (parseJMembers fuel (skipWs r4)).map
                            (fun p => (.objCons (String.mk key) v p.1, p.2))
                      | '\x7d' :: r4 => some (.objCons (String.mk key) v .objNil, r4)
                      | _ => none
              | _ => none
      | _ => none

/-- Parse one or more array elements followed by the closing bracket. -/
def parseJElems : Nat → List Char → Option (JValue × List Char)
  | 0, _ => none
  | fuel + 1, cs =>
      match parseJValue fuel cs with
      | none => none
      | some (v, r) =>
          match skipWs r with
          | ',' :: r2 => (parseJElems fuel r2).map (fun p => (.arrCons v p.1, p.2))
          | ']' :: r2 => some (.arrCons v .arrNil, r2)
          | _ => none

end

/-- Model of `JSON.parse`: parse one value and require only whitespace to
remain; `none` models the thrown `SyntaxError`. -/
def jsonParse (s : String) : Option JValue :=
  match parseJValue (2 * s.data.length + 2) s.data with
  | some (v, rest) => if skipWs rest = [] then some v else none
  | none => none

/-- Model of `Planner.extract_json_str` (`src/agent/tasker/planner.ts`,
lines 358–365): slice from the first `\x7b` to one past the last `\x7d`,
empty when absent or inverted.  The sync variant `extractJsonString` in the
duplicate planner is character-identical. -/
def extract_json_str (text : String) : String :=
  let cs := text.data
  match cs.findIdx? (fun c => c = '\x7b') with
  | none => ""
  | some start =>
      match cs.reverse.findIdx? (fun c => c = '\x7d') with
      | none => ""
      | some revIdx =>
          let stop := cs.length - revIdx
          if stop ≤ start then "" else String.mk ((cs.drop start).take (stop - start))

/-- JavaScript property read `data[key]`: `none` models `undefined`
(including reads on non-objects, where the SDK's parsed data is always an
object).  `JSON.parse` keeps the last of duplicate keys, so a later
member shadows an earlier one. -/
def jget : JValue → String → Option JValue
  | .objCons k v tail, key =>
      match jget tail key with
      | some r => some r
      | none => if k == key then some v else none
  | _, _ => none

/-- Nullish filtering for the `??` operator: `null` behaves like a missing
value. -/
def nonNullish : Option JValue → Option JValue
  | some .null => none
  | v => v

/-- JavaScript `String(v)` coercion on a parsed JSON value: arrays
stringify as `join(',')` of their elements, with `null` elements printing
as the empty string; objects print as `[object Object]`. -/
def jsToString : JValue → String
  | .null => "null"
  | .bool true => "true"
  | .bool false => "false"
  | .num n => toString n
  | .str s => s
  | .objNil => "[object Object]"
  | .objCons _ _ _ => "[object Object]"
  | .arrNil => ""
  | .arrCons .null .arrNil => ""
  | .arrCons h .arrNil => jsToString h
  | .arrCons .null t => "," ++ jsToString t
  | .arrCons h t => jsToString h ++ "," ++ jsToString t

/-! ## planner.ts: reflection output parsing -/

/-- Output of the planner's reflection parsing (`ReflectionOutput` in
`src/agent/tasker/models.ts`).  `reasoning` carries whatever JSON value the
worker supplied (JavaScript does not enforce the annotated `string`). -/
structure ReflectionOutput where
  continue_current : Bool
  new_instruction : Option String
  reasoning : JValue
  success_assessment : Bool
deriving Repr, DecidableEq

/-- The catch-branch fallback, identical in both parser variants. -/
def reflectionFallback : ReflectionOutput :=
  { continue_current := true
    new_instruction := none
    reasoning := .str "Failed to parse reflection response, continuing current approach"
    success_assessment := false }

/-- The shared reasoning expression `data.reflection ?? data.reasoning ?? ''`. -/
def reflReasoning (data : JValue) : JValue :=
  match nonNullish (jget data "reflection") with
  | some v => v
  | none =>
      match nonNullish (jget data "reasoning") with
      | some v => v
      | none => .str ""

/-- Model of the async `Planner.parse_reflection_output`
(`src/agent/tasker/planner.ts`, lines 329–356).  `success` is
`(data.success ?? 'no') === 'yes'`; `new_subtask` is
`String(data.subtask_instruction ?? '').trim()` (total — `String(...)`
never throws). -/
def parse_reflection_output (response : String) : ReflectionOutput :=
  match jsonParse (extract_json_str response) with
  | none => reflectionFallback
  | some data =>
      let success : Bool :=
        match nonNullish (jget data "success") with
        | some (.str s) => s == "yes"
        | _ => false
      let new_subtask : String :=
        jsTrim (jsToString (match nonNullish (jget data "subtask_instruction") with
          | some v => v
          | none => .str ""))
      { continue_current := !success && new_subtask == ""
        new_instruction := if new_subtask == "" then none else some new_subtask
        reasoning := reflReasoning data
        success_assessment := success }

/-- Model of the sync duplicate `Planner.parseReflectionOutput`
(`src/unnamed/part_019`, lines 517–539).  Here `newSubtask` is
`(data.subtask_instruction ?? '').trim()` — when the field holds a
non-string, non-null value, `.trim()` throws a `TypeError` inside the
`try`, so the catch branch returns the fallback. -/
def parseReflectionOutput (response : String) : ReflectionOutput :=
  match jsonParse (extract_json_str response) with
  | none => reflectionFallback
  | some data =>
      let success : Bool :=
        match jget data "success" with
        | some (.str s) => s == "yes"
        | _ => false
      match nonNullish (jget data "subtask_instruction") with
      | some (.str s) =>
          let newSubtask := jsTrim s
          { continue_current := !success && newSubtask == ""
            new_instruction := if newSubtask == "" then none else some newSubtask
            reasoning := reflReasoning data
            success_assessment := success }
      | none =>
          { continue_current := !success
            new_instruction := none
            reasoning := reflReasoning data
            success_assessment := success }
      | some _ => reflectionFallback

/-- Classifies the parsed replies on which the sync variant's
`(data.subtask_instruction ?? '').trim()` does not throw: the field is
absent, `null`, or a string. -/
def goodSubtask (data : JValue) : Bool :=
  match nonNullish (jget data "subtask_instruction") with
  | none => true
  | some (.str _) => true
  | some _ => false

/-- Replies on which the two reflection-parser variants are compared in
the amended claim C10: the extracted JSON fails to parse (both variants
fall back), or the parsed `subtask_instruction` field is absent, `null`,
or a string. -/
def goodReply (response : String) : Bool :=
  match jsonParse (extract_json_str response) with
  | none => true
  | some data => goodSubtask data

/-! ## memory.ts: PlannerMemory -/

/-- Todo status (`TodoStatus` in `src/agent/tasker/models.ts`). -/
inductive TodoStatus where
  | pending
  | in_progress
  | completed
  | skipped
deriving Repr, DecidableEq

/-- A todo item. -/
structure Todo where
  description : String
  status : TodoStatus
deriving Repr, DecidableEq

/-- A logged execution event (`TaskerAction` in models.ts).  The untyped
`details: Record<string, unknown>` bag is omitted: no modelled code path
reads or distinguishes it. -/
structure TaskerAction where
  timestamp : String
  action_type : String
  target : Option String
  reasoning : Option String
  result : Option String
  screenshot_uuid : Option String
deriving Repr, DecidableEq

/-- Execution history for one todo attempt (`TodoHistory`). -/
structure TodoHistory where
  todo_index : Int
  todo : String
  actions : List TaskerAction
  summary : Option String
  completed : Bool
deriving Repr, DecidableEq

/-- The planner's shared memory (`PlannerMemory` in memory.ts).  The
`todo_execution_summaries` record (a JavaScript object keyed by index) is
modelled as an insertion-ordered association list with in-place update. -/
structure PlannerMemory where
  task_description : String
  todos : List Todo
  history : List TodoHistory
  task_execution_summary : String
  todo_execution_summaries : List (Int × String)
deriving Repr, DecidableEq

/-- The `new PlannerMemory()` initial state. -/
def PlannerMemory.init : PlannerMemory :=
  { task_description := ""
    todos := []
    history := []
    task_execution_summary := ""
    todo_execution_summaries := [] }

/-- JavaScript object property write `r[k] = v`: overwrite in place when
the key exists, else append. -/
def recordSet (r : List (Int × String)) (k : Int) (v : String) : List (Int × String) :=
  if r.any (fun p => p.1 == k) then
    r.map (fun p => if p.1 == k then (k, v) else p)
  else r ++ [(k, v)]

/-- Model of `PlannerMemory.set_task`: store the description and rebuild
the todo list with every entry `pending` (the SDK's `TaskerAgent` always
passes plain strings). -/
def set_task (m : PlannerMemory) (task_description : String) (todos : List String) :
    PlannerMemory :=
  { m with
    task_description := task_description
    todos := todos.map (fun d => { description := d, status := .pending }) }

/-- Model of `PlannerMemory.update_todo` (memory.ts, lines 65–76): guarded
by `index >= 0 && index < this.todos.length`; sets the status and, when
the summary is a truthy (non-empty) string, stores it in
`todo_execution_summaries`. -/
def update_todo (m : PlannerMemory) (index : Int) (status : TodoStatus)
    (summary : Option String) : PlannerMemory :=
  if 0 ≤ index then
    match m.todos.get? index.toNat with
    | some t =>
        { m with
          todos := m.todos.set index.toNat { t with status := status }
          todo_execution_summaries :=
            if strTruthy summary then
              recordSet m.todo_execution_summaries index (summary.getD "")
            else m.todo_execution_summaries }
    | none => m
  else m

/-- Model of `PlannerMemory.add_history` (memory.ts, lines 78–96): guarded
by `todo_index >= 0 && todo_index < this.todos.length`; appends one
history entry snapshotting the todo's description. -/
def add_history (m : PlannerMemory) (todo_index : Int) (actions : List TaskerAction)
    (summary : Option String) (completed : Bool) : PlannerMemory :=
  if 0 ≤ todo_index then
    match m.todos.get? todo_index.toNat with
    | some t =>
        { m with
          history := m.history ++
            [{ todo_index := todo_index
               todo := t.description
               actions := actions
               summary := summary
               completed := completed }] }
    | none => m
  else m

/-- Model of the loop in `PlannerMemory.get_current_todo`: the first
`pending` or `in_progress` todo with its index (`none` models the
`[null, -1]` return). -/
def findCurrentTodo : List Todo → Nat → Option (Todo × Nat)
  | [], _ => none
  | t :: ts, idx =>
      if t.status = .pending || t.status = .in_progress then some (t, idx)
      else findCurrentTodo ts (idx + 1)

/-- Model of `PlannerMemory.get_current_todo`. -/
def get_current_todo (m : PlannerMemory) : Option (Todo × Nat) :=
  findCurrentTodo m.todos 0

/-- Count of todos with a given status (the entries of
`get_todo_status_summary`). -/
def statusCount (m : PlannerMemory) (st : TodoStatus) : Nat :=
  (m.todos.filter (fun t => t.status == st)).length

/-! ## tasker_agent.ts: TaskerAgent

`TaskerAgent.execute` drives a `while (true)` loop: `prepare()` selects
the first pending/in-progress todo (marking a pending one `in_progress`),
`execute_todo` runs a fresh `TaskeeAgent` on it, and the loop folds the
result into memory.  The Taskee run is external, asynchronous code; we
model each run's outcome as a value of `TaskeeOutcome` supplied by an
oracle `runs : Nat → TaskeeOutcome` (the `k`-th loop iteration observes
`runs k`).  The Taskee (`taskee_agent.ts`) never writes todo statuses —
it only reads memory through `get_context` — so memory is mutated
exclusively by the Tasker code modelled here. -/

/-- Result of `TaskeeAgent.return_execution_results`. -/
structure ExecutionResult where
  success : Bool
  actions : List TaskerAction
  summary : String
  total_steps : Nat
deriving Repr, DecidableEq

/-- Outcome of one `TaskeeAgent.execute` run as the Tasker observes it:
either the awaited promise rejects (`throws`, carrying `String(e)`), or
it resolves to a boolean with the agent's execution results. -/
inductive TaskeeOutcome where
  | throws (e : String)
  | returns (success : Bool) (results : ExecutionResult)

/-- Model of `TaskerAgent.update_memory_from_execution` (tasker_agent.ts,
lines 241–271). -/
def update_memory_from_execution (m : PlannerMemory) (todo_index : Int)
    (results : ExecutionResult) (success : Bool) : PlannerMemory :=
  let status : TodoStatus := if success then .completed else .in_progress
  let m := update_todo m todo_index status (some results.summary)
  let m := add_history m todo_index results.actions (some results.summary) success
  if success then
    let line := "- Completed todo " ++ toString todo_index ++ ": " ++ results.summary
    { m with task_execution_summary :=
        if m.task_execution_summary ≠ "" then m.task_execution_summary ++ "\n" ++ line
        else line }
  else m

/-- Model of `TaskerAgent.execute_todo` (tasker_agent.ts, lines 204–239)
for a prepared agent and valid index (`prepare` guarantees both): the
catch branch marks the todo `in_progress` with an `Execution failed:`
summary and reports failure. -/
def execute_todo (m : PlannerMemory) (todo_index : Int) (outcome : TaskeeOutcome) :
    PlannerMemory × Bool :=
  match outcome with
  | .throws e =>
      (update_todo m todo_index .in_progress (some ("Execution failed: " ++ e)), false)
  | .returns success results =>
      (update_memory_from_execution m todo_index results success, success)

/-- First 100 characters (`String.prototype.slice(0, 100)`). -/
def sliceStr (s : String) (n : Nat) : String :=
  ⟨s.data.take n⟩

/-- One summary line of `update_task_summary`. -/
def historyLine (h : TodoHistory) : String :=
  "- Todo " ++ toString h.todo_index ++ ": " ++ sliceStr (h.summary.getD "") 100

/-- Model of `TaskerAgent.update_task_summary` (tasker_agent.ts, lines
273–294): a `Progress:` header followed by one line for each of the LAST
3 history entries that is completed and carries a truthy summary (the
source iterates `history.slice(Math.max(0, history.length - 3))` and
pushes a line when `history.completed && history.summary`). -/
def update_task_summary (m : PlannerMemory) : PlannerMemory :=
  let completed := statusCount m .completed
  let total := m.todos.length
  let header := "Progress: " ++ toString completed ++ "/" ++ toString total
    ++ " todos completed"
  let recent := m.history.drop (m.history.length - 3)
  let summary_parts := recent.foldl
    (fun parts h =>
      if h.completed && strTruthy h.summary then parts ++ [historyLine h] else parts)
    [header]
  { m with task_execution_summary := String.intercalate "\n" summary_parts }

/-- Written from the spec sentence for comparison (claim C8): recompute
the rolling summary from "the 3 most recent completed-with-summary
history entries" — filter the whole history for completed-with-summary
first, then keep the last 3. -/
def update_task_summary_specModel (m : PlannerMemory) : PlannerMemory :=
  let completed := statusCount m .completed
  let total := m.todos.length
  let header := "Progress: " ++ toString completed ++ "/" ++ toString total
    ++ " todos completed"
  let eligible := m.history.filter (fun h => h.completed && strTruthy h.summary)
  let recent := eligible.drop (eligible.length - 3)
  { m with task_execution_summary :=
      String.intercalate "\n" (header :: recent.map historyLine) }

/-- The body of `TaskerAgent.execute` (tasker_agent.ts, lines 97–166),
fuel-indexed (the loop provably terminates within `todos.length + 1`
iterations, which `TaskerExecute` supplies).  Besides the final memory
and the overall boolean, the model returns the trace of todo indices on
which `execute_todo` was invoked, in order, so that "which todos were
attempted" is observable. -/
def executeLoop (runs : Nat → TaskeeOutcome) : Nat → Nat → PlannerMemory → Bool →
    List Nat → PlannerMemory × Bool × List Nat
  | _, 0, m, overall_success, attempted => (m, overall_success, attempted)
  | k, fuel + 1, m, overall_success, attempted =>
      match get_current_todo m with
      | none => (m, overall_success, attempted)
      | some (todo, todo_index) =>
          let m := if todo.status = .pending then
              update_todo m todo_index .in_progress none
            else m
          let r := execute_todo m todo_index (runs k)
          let m := r.1
          let success := r.2
          let attempted := attempted ++ [todo_index]
          if success then
            executeLoop runs (k + 1) fuel (update_task_summary m) overall_success attempted
          else
            match (m.todos.get? todo_index).map Todo.status with
            | some .in_progress => (m, false, attempted)
            | _ => executeLoop runs (k + 1) fuel (update_task_summary m) false attempted

/-- Model of `TaskerAgent.execute` on a memory state, with the per-run
outcomes supplied by `runs`. -/
def TaskerExecute (runs : Nat → TaskeeOutcome) (m : PlannerMemory) :
    PlannerMemory × Bool × List Nat :=
  executeLoop runs 0 (m.todos.length + 1) m true []

/-! ## actor.ts: Actor step bookkeeping

`Actor.step` begins with the synchronous `validateAndIncrementStep`
precondition check; everything after it is remote I/O.  We model the
fields that check reads and writes (`taskDescription`, `maxSteps`,
`currentStep`, plus `model`, which fixes the per-model ceiling in
`initTask`); the conversation history and HTTP client do not influence
the check.  A JavaScript `ValueError` is modelled as `Except.error` with
the thrown message. -/

/-- Constants from `src/consts.ts`. -/
def MODEL_ACTOR : String := "lux-actor-1"

/-- Constants from `src/consts.ts`. -/
def MODEL_THINKER : String := "lux-thinker-1"

/-- Constants from `src/consts.ts`. -/
def DEFAULT_MAX_STEPS : Nat := 20

/-- Constants from `src/consts.ts`. -/
def MAX_STEPS_ACTOR : Nat := 30

/-- Constants from `src/consts.ts`. -/
def MAX_STEPS_THINKER : Nat := 120

/-- The step-bookkeeping fields of an `Actor`. -/
structure ActorState where
  model : String
  taskDescription : Option String
  maxSteps : Nat
  currentStep : Nat
deriving Repr, DecidableEq

/-- A freshly constructed `Actor` (no task initialized yet). -/
def Actor.new (model : String) : ActorState :=
  { model := model
    taskDescription := none
    maxSteps := DEFAULT_MAX_STEPS
    currentStep := 0 }

/-- Model of `Actor.validateAndIncrementStep` (src/actor.ts, lines
60–72): throws when `taskDescription` is falsy (unset or the empty
string), throws when the ceiling is reached, else increments. -/
def validateAndIncrementStep (s : ActorState) : Except String ActorState :=
  if strTruthy s.taskDescription = false then
    .error "Task description must be set. Call initTask() first."
  else if s.maxSteps ≤ s.currentStep then
    .error ("Max steps limit (" ++ toString s.maxSteps
      ++ ") reached. Call initTask() to start a new task.")
  else
    .ok { s with currentStep := s.currentStep + 1 }

/-- Model of `Actor.initTask` (src/actor.ts, lines 123–143): cap the
requested `maxSteps` at the per-model ceiling (warn-and-cap, no error),
set the description, reset the step counter. -/
def initTask (s : ActorState) (taskDescription : String) (maxSteps : Nat) : ActorState :=
  let limit := if s.model == MODEL_THINKER then MAX_STEPS_THINKER else MAX_STEPS_ACTOR
  let maxSteps := if limit < maxSteps then limit else maxSteps
  { s with
    taskDescription := some taskDescription
    maxSteps := maxSteps
    currentStep := 0 }

/-- Run the precondition check of `n` consecutive `step()` calls,
stopping at the first thrown error. -/
def runSteps (s : ActorState) : Nat → Except String ActorState
  | 0 => .ok s
  | n + 1 =>
      match validateAndIncrementStep s with
      | .ok s2 => runSteps s2 n
      | .error e => .error e

/-! ## handler.ts: coordinate denormalization -/

/-- Model of `DefaultActionHandler.#denormalize` (src/handler.ts, lines
169–181) for a screen of `width × height` device pixels: scale the
0–1000-normalized coordinates (`Math.floor` is `Int.fdiv` on integers),
then clamp below at 1 and above at `width - 1` / `height - 1`, in that
order. -/
def denormalize (width height x y : Int) : Int × Int :=
  let px := Int.fdiv (x * width) 1000
  let py := Int.fdiv (y * height) 1000
  let px := if px < 1 then 1 else px
  let px := if width - 1 < px then width - 1 else px
  let py := if py < 1 then 1 else py
  let py := if height - 1 < py then height - 1 else py
  (px, py)

/-! ## Theorems -/

/-- C1: the spec demands that `splitActions` reproduce exactly the
original token list — `splitActions("drag(1,2,3,4) & wait()")` should be
`["drag(1,2,3,4)", "wait()"]`.  The source pushes each character onto the
accumulator BEFORE the separator check, so every non-final token keeps
its trailing `&`; evaluating the code at the spec's own example shows the
divergence. -/
theorem c1_splitActions_keeps_separator :
    splitActions "drag(1,2,3,4) & wait()" = ["drag(1,2,3,4) &", "wait()"] := by
  decide

/-- C5 counterexample: the claim quantifies over every screen size, but
on a 1 × 1-pixel screen the clamp chain emits device pixel `(0, 0)` —
the literal minimum coordinate — for normalized `(0, 0)`. -/
theorem c5_counterexample :
    denormalize 1 1 0 0 = (0, 0) := by
  decide

/-- C6 counterexample: an `Actor` initialized via `initTask` with the
empty task description and limit `5` fails the precondition check already
on the very first `step()` call (the falsy-description guard fires), not
on the 6th. -/
theorem c6_counterexample :
    (initTask (Actor.new MODEL_ACTOR) "" 5).maxSteps = 5 ∧
    runSteps (initTask (Actor.new MODEL_ACTOR) "" 5) 1 =
      .error "Task description must be set. Call initTask() first." :=
  ⟨by decide, rfl⟩

/-- C10 counterexample: on the reply whose `subtask_instruction` is the
number `5`, the async parser stringifies and pivots while the sync
parser's `.trim()` throws and yields the fallback — the two outputs
differ. -/
theorem c10_counterexample :
    parse_reflection_output "\x7b\"success\":\"yes\",\"subtask_instruction\":5\x7d" ≠
      parseReflectionOutput "\x7b\"success\":\"yes\",\"subtask_instruction\":5\x7d" ∧
    (parse_reflection_output "\x7b\"success\":\"yes\",\"subtask_instruction\":5\x7d").continue_current
      = false ∧
    (parseReflectionOutput "\x7b\"success\":\"yes\",\"subtask_instruction\":5\x7d").continue_current
      = true ∧
    (parse_reflection_output "\x7b\"success\":\"yes\",\"subtask_instruction\":5\x7d").success_assessment
      = true ∧
    (parseReflectionOutput "\x7b\"success\":\"yes\",\"subtask_instruction\":5\x7d").success_assessment
      = false := by
  decide

/-- C8 counterexample: for a memory whose one completed-with-summary
history entry is followed by three failed entries, the recomputed summary
contains no todo line at all, while the spec's "3 most recent
completed-with-summary entries" reading demands a line for that entry. -/
theorem c8_counterexample :
    (update_task_summary
      { task_description := "t"
        todos := [{ description := "t0", status := .completed }]
        history :=
          [{ todo_index := 0, todo := "t0", actions := [], summary := some "done", completed := true },
           { todo_index := 0, todo := "t0", actions := [], summary := none, completed := false },
           { todo_index := 0, todo := "t0", actions := [], summary := none, completed := false },
           { todo_index := 0, todo := "t0", actions := [], summary := none, completed := false }]
        task_execution_summary := ""
        todo_execution_summaries := [] }).task_execution_summary
      = "Progress: 1/1 todos completed" ∧
    (update_task_summary_specModel
      { task_description := "t"
        todos := [{ description := "t0", status := .completed }]
        history :=
          [{ todo_index := 0, todo := "t0", actions := [], summary := some "done", completed := true },
           { todo_index := 0, todo := "t0", actions := [], summary := none, completed := false },
           { todo_index := 0, todo := "t0", actions := [], summary := none, completed := false },
           { todo_index := 0, todo := "t0", actions := [], summary := none, completed := false }]
        task_execution_summary := ""
        todo_execution_summaries := [] }).task_execution_summary
      = "Progress: 1/1 todos completed\n- Todo 0: done" := by
  decide

/-- C2 counterexample: a 2-todo workflow whose first Taskee run resolves
to `false` WITHOUT throwing: the recorded status stays `in_progress`, so
the fatal-stop check fires and the workflow terminates after todo 0 —
todo 1 is never attempted (trace `[0]`, still `pending`), contradicting
"the Tasker loop proceeds to attempt the next todo". -/
theorem c2_counterexample :
    (TaskerExecute
        (fun _ => .returns false
          { success := false, actions := [], summary := "ran out of steps", total_steps := 8 })
        (set_task PlannerMemory.init "book a flight" ["todo a", "todo b"])).2.2 = [0] ∧
    (TaskerExecute
        (fun _ => .returns false
          { success := false, actions := [], summary := "ran out of steps", total_steps := 8 })
        (set_task PlannerMemory.init "book a flight" ["todo a", "todo b"])).2.1 = false ∧
    ((TaskerExecute
        (fun _ => .returns false
          { success := false, actions := [], summary := "ran out of steps", total_steps := 8 })
        (set_task PlannerMemory.init "book a flight" ["todo a", "todo b"])).1.todos.get? 1).map
        Todo.status = some .pending := by
  decide

/-- C4: the reflection decision table.  Reply `'{"success":"yes"}'` gives
`success_assessment = true` and `continue_current = false`; reply
`'{"success":"no","subtask_instruction":""}'` continues the current
instruction; reply `'{"success":"no","subtask_instruction":"click the
button"}'` pivots with that new instruction; and every reply whose
extracted JSON fails to parse yields the keep-going fallback
(`continue_current = true`, `success_assessment = false`). -/
theorem c4_reflection_decision_table :
    (parse_reflection_output "\x7b\"success\":\"yes\"\x7d").success_assessment = true ∧
    (parse_reflection_output "\x7b\"success\":\"yes\"\x7d").continue_current = false ∧
    (parse_reflection_output "\x7b\"success\":\"no\",\"subtask_instruction\":\"\"\x7d").continue_current
      = true ∧
    (parse_reflection_output
        "\x7b\"success\":\"no\",\"subtask_instruction\":\"click the button\"\x7d").continue_current
      = false ∧
    (parse_reflection_output
        "\x7b\"success\":\"no\",\"subtask_instruction\":\"click the button\"\x7d").new_instruction
      = some "click the button" ∧
    ∀ response : String, (jsonParse (extract_json_str response)).isNone = true →
      (parse_reflection_output response).continue_current = true ∧
      (parse_reflection_output response).success_assessment = false := by
  refine ⟨by decide, by decide, by decide, by decide, by decide, ?_⟩
  intro response h
  unfold parse_reflection_output
  cases heq : jsonParse (extract_json_str response) with
  | none => exact ⟨rfl, rfl⟩
  | some data => rw [heq] at h; simp [Option.isNone] at h

/-- C4 witness: the malformed-reply row of the table at the concrete
non-JSON reply `"not json"`. -/
theorem c4_witness :
    (parse_reflection_output "not json").continue_current = true ∧
    (parse_reflection_output "not json").success_assessment = false :=
  c4_reflection_decision_table.2.2.2.2.2 "not json" (by decide)

/-- C7: `parseAction("hotkey(ctrl+c, 0)")` coerces the zero count to 1;
`parseAction("hotkey(ctrl+c, 3)")` keeps count 3 with argument
`"ctrl+c"`; and for every input whose raw parsed count is not a positive
integer, the returned action's count is coerced to 1. -/
theorem c7_parseAction_count_coercion :
    parseAction "hotkey(ctrl+c, 0)"
      = some { type := "hotkey", argument := "ctrl+c", count := 1 } ∧
    parseAction "hotkey(ctrl+c, 3)"
      = some { type := "hotkey", argument := "ctrl+c", count := 3 } ∧
    ∀ (s : String) (t arg : String) (c : JsNum),
      parseActionCore s = some (t, arg, c) → isPosIntCount c = false →
      parseAction s = some { type := t, argument := arg, count := 1 } := by
  refine ⟨by decide, by decide, ?_⟩
  intro s t arg c h hc
  have hcc : coerceCount c = 1 := by
    cases c with
    | int n =>
        simp only [isPosIntCount, decide_eq_false_iff_not, not_lt] at hc
        simp [coerceCount, hc]
    | nan => rfl
    | nonint => rfl
  simp [parseAction, h, hcc]

/-- C7 witness: the universal coercion clause applied at the concrete
input `"hotkey(ctrl+c, 0)"`, whose raw count parses to the non-positive
integer 0. -/
theorem c7_witness :
    parseAction "hotkey(ctrl+c, 0)"
      = some { type := "hotkey", argument := "ctrl+c", count := 1 } :=
  c7_parseAction_count_coercion.2.2 "hotkey(ctrl+c, 0)" "hotkey" "ctrl+c" (.int 0)
    (by decide) (by decide)

/-- C9: for every memory state and every index outside
`[0, todos.length)`, `update_todo` and `add_history` are silent no-ops —
the entire memory state is returned unchanged. -/
theorem c9_out_of_range_noop (m : PlannerMemory) (index : Int) (status : TodoStatus)
    (summary : Option String) (actions : List TaskerAction) (completed : Bool)
    (h : index < 0 ∨ (m.todos.length : Int) ≤ index) :
    update_todo m index status summary = m ∧
    add_history m index actions summary completed = m := by
  rcases h with hneg | hge
  · constructor
    · unfold update_todo
      rw [if_neg (by omega)]
    · unfold add_history
      rw [if_neg (by omega)]
  · have hnone : m.todos.get? index.toNat = none :=
      List.get?_eq_none.mpr (by omega)
    constructor
    · unfold update_todo
      rw [if_pos (by omega), hnone]
    · unfold add_history
      rw [if_pos (by omega), hnone]

/-- C9 witness: the no-ops at a concrete one-todo memory with the
out-of-range indices `-1` (via the left disjunct). -/
theorem c9_witness :
    update_todo
        { task_description := "t"
          todos := [{ description := "t0", status := .pending }]
          history := []
          task_execution_summary := ""
          todo_execution_summaries := [] } (-1) .completed (some "s")
      = { task_description := "t"
          todos := [{ description := "t0", status := .pending }]
          history := []
          task_execution_summary := ""
          todo_execution_summaries := [] } ∧
    add_history
        { task_description := "t"
          todos := [{ description := "t0", status := .pending }]
          history := []
          task_execution_summary := ""
          todo_execution_summaries := [] } (-1) [] (some "s") true
      = { task_description := "t"
          todos := [{ description := "t0", status := .pending }]
          history := []
          task_execution_summary := ""
          todo_execution_summaries := [] } :=
  c9_out_of_range_noop _ (-1) .completed (some "s") [] true (Or.inl (by decide))

/-- Helper: with a truthy task description and enough budget, `n`
consecutive step checks pass, advancing the counter by `n`. -/
theorem runSteps_ok_of_le (n : Nat) : ∀ (st : ActorState),
    strTruthy st.taskDescription = true → st.currentStep + n ≤ st.maxSteps →
    runSteps st n = .ok { st with currentStep := st.currentStep + n } := by
  induction n with
  | zero =>
      intro st h1 h2
      obtain ⟨mo, td, ms, cs⟩ := st
      simp [runSteps]
  | succ n ih =>
      intro st h1 h2
      obtain ⟨mo, td, ms, cs⟩ := st
      simp only at h1 h2
      have hstep : validateAndIncrementStep ⟨mo, td, ms, cs⟩ = .ok ⟨mo, td, ms, cs + 1⟩ := by
        unfold validateAndIncrementStep
        rw [if_neg (by simp [h1]), if_neg (by simp only; omega)]
      simp only [runSteps, hstep]
      rw [ih ⟨mo, td, ms, cs + 1⟩ h1 (show cs + 1 + n ≤ ms by omega)]
      have harith : cs + 1 + n = cs + (n + 1) := by omega
      simp only [harith]


/-- Helper: with a truthy task description and the counter exactly `n`
short of the ceiling, the `(n+1)`-th step check throws the max-steps
state error. -/
theorem runSteps_limit_err (n : Nat) : ∀ (st : ActorState),
    strTruthy st.taskDescription = true → st.currentStep + n = st.maxSteps →
    runSteps st (n + 1) = .error ("Max steps limit (" ++ toString st.maxSteps
      ++ ") reached. Call initTask() to start a new task.") := by
  induction n with
  | zero =>
      intro st h1 h2
      obtain ⟨mo, td, ms, cs⟩ := st
      simp only at h1 h2
      have hstep : validateAndIncrementStep ⟨mo, td, ms, cs⟩ =
          .error ("Max steps limit (" ++ toString ms
            ++ ") reached. Call initTask() to start a new task.") := by
        unfold validateAndIncrementStep
        rw [if_neg (by simp [h1]), if_pos (by simp only; omega)]
      simp only [runSteps, hstep]
  | succ n ih =>
      intro st h1 h2
      obtain ⟨mo, td, ms, cs⟩ := st
      simp only at h1 h2
      have hstep : validateAndIncrementStep ⟨mo, td, ms, cs⟩ = .ok ⟨mo, td, ms, cs + 1⟩ := by
        unfold validateAndIncrementStep
        rw [if_neg (by simp [h1]), if_neg (by simp only; omega)]
      simp only [runSteps, hstep]
      exact ih ⟨mo, td, ms, cs + 1⟩ h1 (show cs + 1 + n = ms by omega)

/-- C6 amended: for an `Actor` initialized via `initTask` with a NONEMPTY
task description, the first `maxSteps` calls to `step()` pass the
precondition check and the `(maxSteps+1)`-th fails with the max-steps
state error, where `maxSteps` is the task's effective limit (the
requested value capped at the per-model ceiling); and `step()` on a fresh
`Actor` with no task initialized fails with the no-task state error. -/
theorem c6_amended (s0 : ActorState) (desc : String) (requested : Nat)
    (hdesc : desc ≠ "") :
    (runSteps (initTask s0 desc requested) (initTask s0 desc requested).maxSteps).isOk
      = true ∧
    runSteps (initTask s0 desc requested) ((initTask s0 desc requested).maxSteps + 1)
      = .error ("Max steps limit (" ++ toString (initTask s0 desc requested).maxSteps
          ++ ") reached. Call initTask() to start a new task.") ∧
    ∀ model : String, validateAndIncrementStep (Actor.new model)
      = .error "Task description must be set. Call initTask() first." := by
  have htruthy : strTruthy (initTask s0 desc requested).taskDescription = true := by
    simp [initTask, strTruthy, hdesc]
  have hcs : (initTask s0 desc requested).currentStep = 0 := by
    simp [initTask]
  refine ⟨?_, ?_, ?_⟩
  · rw [runSteps_ok_of_le _ _ htruthy (by omega)]
    rfl
  · exact runSteps_limit_err _ _ htruthy (by omega)
  · intro model
    rfl

/-- C6 witness: the amended theorem at a fresh actor-model `Actor`, the
nonempty description `"open settings"`, and requested limit 3 (below the
ceiling, so the effective limit is 3). -/
theorem c6_witness :
    (runSteps (initTask (Actor.new MODEL_ACTOR) "open settings" 3)
        (initTask (Actor.new MODEL_ACTOR) "open settings" 3).maxSteps).isOk = true ∧
    runSteps (initTask (Actor.new MODEL_ACTOR) "open settings" 3)
        ((initTask (Actor.new MODEL_ACTOR) "open settings" 3).maxSteps + 1)
      = .error ("Max steps limit ("
          ++ toString (initTask (Actor.new MODEL_ACTOR) "open settings" 3).maxSteps
          ++ ") reached. Call initTask() to start a new task.") ∧
    ∀ model : String, validateAndIncrementStep (Actor.new model)
      = .error "Task description must be set. Call initTask() first." :=
  c6_amended (Actor.new MODEL_ACTOR) "open settings" 3 (by decide)

/-- Helper: floor division of a nonnegative scaled coordinate by 1000
stays within `[0, bound]` when the coordinate is at most `1000 * bound`. -/
theorem fdiv_1000_bounds (a bound : Int) (ha : 0 ≤ a) (hb : a ≤ 1000 * bound) :
    0 ≤ Int.fdiv a 1000 ∧ Int.fdiv a 1000 ≤ bound := by
  obtain ⟨n, rfl⟩ := Int.eq_ofNat_of_zero_le ha
  have h1000 : (1000 : Int) = ((1000 : Nat) : Int) := rfl
  rw [h1000, ← Int.ofNat_fdiv]
  constructor
  · exact_mod_cast Int.ofNat_nonneg _
  · omega

/-- C5 amended: for every normalized pair in the 0–1000 range and every
screen of at least 2 × 2 device pixels, the denormalized coordinates lie
in `[1, width-1] × [1, height-1]` — one pixel inside each screen edge,
never the literal extremes `0` or `width`/`height`; in particular
normalized `(0,0)` on the 1000 × 800 screen maps to `(1,1)`. -/
theorem c5_amended (width height x y : Int) (hw : 2 ≤ width) (hh : 2 ≤ height)
    (hx0 : 0 ≤ x) (hx1 : x ≤ 1000) (hy0 : 0 ≤ y) (hy1 : y ≤ 1000) :
    1 ≤ (denormalize width height x y).1 ∧ (denormalize width height x y).1 ≤ width - 1 ∧
    1 ≤ (denormalize width height x y).2 ∧ (denormalize width height x y).2 ≤ height - 1 ∧
    denormalize 1000 800 0 0 = (1, 1) := by
  have hbx := fdiv_1000_bounds (x * width) width
    (mul_nonneg hx0 (by omega)) (by nlinarith)
  have hby := fdiv_1000_bounds (y * height) height
    (mul_nonneg hy0 (by omega)) (by nlinarith)
  refine ⟨?_, ?_, ?_, ?_, by decide⟩ <;>
    · simp only [denormalize]
      split_ifs <;> omega

/-- C5 witness: the amended bounds at normalized `(0, 0)` on a
1920 × 1080 screen. -/
theorem c5_witness :
    1 ≤ (denormalize 1920 1080 0 0).1 ∧ (denormalize 1920 1080 0 0).1 ≤ 1920 - 1 ∧
    1 ≤ (denormalize 1920 1080 0 0).2 ∧ (denormalize 1920 1080 0 0).2 ≤ 1080 - 1 ∧
    denormalize 1000 800 0 0 = (1, 1) :=
  c5_amended 1920 1080 0 0 (by decide) (by decide) (by decide) (by decide)
    (by decide) (by decide)

/-- Helper: pushing conditionally inside a left fold is filtering then
mapping. -/
theorem foldl_push_filter_map {α β : Type} (p : α → Bool) (f : α → β) :
    ∀ (l : List α) (acc : List β),
      l.foldl (fun parts h => if p h then parts ++ [f h] else parts) acc
        = acc ++ (l.filter p).map f := by
  intro l
  induction l with
  | nil => intro acc; simp
  | cons h t ih =>
      intro acc
      by_cases hp : p h
      · simp [List.foldl, hp, ih]
      · simp [List.foldl, hp, ih]

/-- C8 amended: after each todo the recomputed `task_execution_summary`
is the `Progress:` header followed by one line for each entry among the
LAST 3 history entries that is completed and carries a (non-empty)
summary — the source filters the 3 most recent history entries, it does
not look further back for completed-with-summary entries. -/
theorem c8_amended (m : PlannerMemory) :
    (update_task_summary m).task_execution_summary
      = String.intercalate "\n"
          (("Progress: " ++ toString (statusCount m .completed) ++ "/"
              ++ toString m.todos.length ++ " todos completed")
            :: ((m.history.drop (m.history.length - 3)).filter
                  (fun h => h.completed && strTruthy h.summary)).map historyLine) := by
  simp only [update_task_summary]
  rw [foldl_push_filter_map]
  simp

/-- C10 amended: the async and sync reflection parsers produce equal
`ReflectionOutput` records on every worker reply whose extracted JSON
fails to parse, or whose parsed `subtask_instruction` field is absent,
`null`, or a string (`goodReply`).  They differ exactly on the remaining
replies — non-string `subtask_instruction` values — where the sync
variant's `.trim()` throws and produces the malformed-reply fallback. -/
theorem c10_amended (response : String) (h : goodReply response = true) :
    parse_reflection_output response = parseReflectionOutput response := by
  unfold parse_reflection_output parseReflectionOutput
  unfold goodReply goodSubtask at h
  cases heq : jsonParse (extract_json_str response) with
  | none => rfl
  | some data =>
      rw [heq] at h
      dsimp only at h ⊢
      cases hv : nonNullish (jget data "subtask_instruction") with
      | none =>
          simp only [hv]
          cases hs : jget data "success" with
          | none => simp [nonNullish, jsToString, jsTrim, jsTrimList]
          | some w => cases w <;> simp [nonNullish, jsToString, jsTrim, jsTrimList]
      | some v =>
          rw [hv] at h
          cases v with
          | str s =>
              simp only [hv]
              cases hs : jget data "success" with
              | none => simp [nonNullish, jsToString]
              | some w => cases w <;> simp [nonNullish, jsToString]
          | null => simp at h
          | bool b => simp at h
          | num n => simp at h
          | arrNil => simp at h
          | arrCons hd tl => simp at h
          | objNil => simp at h
          | objCons k val tl => simp at h

/-- C10 witness: the amended equality at the concrete reply
`'{"success":"no"}'`, whose `subtask_instruction` field is absent. -/
theorem c10_witness :
    parse_reflection_output "\x7b\"success\":\"no\"\x7d"
      = parseReflectionOutput "\x7b\"success\":\"no\"\x7d" :=
  c10_amended "\x7b\"success\":\"no\"\x7d" (by decide)

/-- C3: in every 2-todo workflow whose first Taskee run throws (leaving
todo 0's status `in_progress` — the catch branch always sets it so), the
workflow terminates after todo 0: the attempt trace is `[0]` (todo 1 is
never attempted) and the overall result is `false`. -/
theorem c3_fatal_stop (task d0 d1 e : String) (runs : Nat → TaskeeOutcome)
    (h : runs 0 = .throws e) :
    (TaskerExecute runs (set_task PlannerMemory.init task [d0, d1])).2.1 = false ∧
    (TaskerExecute runs (set_task PlannerMemory.init task [d0, d1])).2.2 = [0] ∧
    ((TaskerExecute runs (set_task PlannerMemory.init task [d0, d1])).1.todos.get? 0).map
        Todo.status = some .in_progress := by
  simp [TaskerExecute, executeLoop, set_task, PlannerMemory.init, get_current_todo,
    findCurrentTodo, execute_todo, update_todo, update_memory_from_execution,
    add_history, h, strTruthy]

/-- C3 witness: the fatal-stop scenario at a concrete 2-todo workflow
whose first run throws `"boom"`. -/
theorem c3_witness :
    (TaskerExecute (fun _ => .throws "boom")
        (set_task PlannerMemory.init "trip" ["search flights", "book hotel"])).2.1 = false ∧
    (TaskerExecute (fun _ => .throws "boom")
        (set_task PlannerMemory.init "trip" ["search flights", "book hotel"])).2.2 = [0] ∧
    ((TaskerExecute (fun _ => .throws "boom")
        (set_task PlannerMemory.init "trip" ["search flights", "book hotel"])).1.todos.get? 0).map
        Todo.status = some .in_progress :=
  c3_fatal_stop "trip" "search flights" "book hotel" "boom" (fun _ => .throws "boom") rfl

/-- C2 amended: when the first todo's Taskee run resolves to `false`
without throwing, the failure IS recorded — status left `in_progress`,
one history entry appended with `completed = false` and the run's
summary — but the workflow loop then terminates immediately rather than
proceeding to the next todo: the recorded `in_progress` status makes the
fatal-stop check fire exactly as in the throwing case, so the attempt
trace is `[0]` and the overall result is `false`. -/
theorem c2_amended (task d0 : String) (ds : List String) (runs : Nat → TaskeeOutcome)
    (r : ExecutionResult) (h : runs 0 = .returns false r) :
    (TaskerExecute runs (set_task PlannerMemory.init task (d0 :: ds))).2.1 = false ∧
    (TaskerExecute runs (set_task PlannerMemory.init task (d0 :: ds))).2.2 = [0] ∧
    ((TaskerExecute runs (set_task PlannerMemory.init task (d0 :: ds))).1.todos.get? 0).map
        Todo.status = some .in_progress ∧
    (TaskerExecute runs (set_task PlannerMemory.init task (d0 :: ds))).1.history
      = [{ todo_index := 0, todo := d0, actions := r.actions,
           summary := some r.summary, completed := false }] := by
  simp [TaskerExecute, executeLoop, set_task, PlannerMemory.init, get_current_todo,
    findCurrentTodo, execute_todo, update_todo, update_memory_from_execution,
    add_history, h, strTruthy]

/-- C2 witness: the amended behavior at a concrete 2-todo workflow whose
first run returns `false` with a step-budget-exhausted summary. -/
theorem c2_witness :
    (TaskerExecute
        (fun _ => .returns false
          { success := false, actions := [], summary := "budget exhausted", total_steps := 20 })
        (set_task PlannerMemory.init "errand" ["buy milk", "buy bread"])).2.1 = false ∧
    (TaskerExecute
        (fun _ => .returns false
          { success := false, actions := [], summary := "budget exhausted", total_steps := 20 })
        (set_task PlannerMemory.init "errand" ["buy milk", "buy bread"])).2.2 = [0] ∧
    ((TaskerExecute
        (fun _ => .returns false
          { success := false, actions := [], summary := "budget exhausted", total_steps := 20 })
        (set_task PlannerMemory.init "errand" ["buy milk", "buy bread"])).1.todos.get? 0).map
        Todo.status = some .in_progress ∧
    (TaskerExecute
        (fun _ => .returns false
          { success := false, actions := [], summary := "budget exhausted", total_steps := 20 })
        (set_task PlannerMemory.init "errand" ["buy milk", "buy bread"])).1.history
      = [{ todo_index := 0, todo := "buy milk", actions := [],
           summary := some "budget exhausted", completed := false }] :=
  c2_amended "errand" "buy milk" ["buy bread"]
    (fun _ => .returns false
      { success := false, actions := [], summary := "budget exhausted", total_steps := 20 })
    { success := false, actions := [], summary := "budget exhausted", total_steps := 20 } rfl

end OagiSpec
